import Mathlib

/-!
Shallow embedding of the `work` job-worker runtime (worker.go) and proofs
about its documented behaviour.

Machine integers (Go `int64`, `time.Duration` in nanoseconds) are modelled
as `Int`; the truncating integer division of Go is `Int.tdiv`.  Go error values
built by `errors.New` / `fmt.Errorf("...%w", e)` are modelled by the
inductive `Err` below, and `errors.Is` by `errorsIs`.
-/

namespace Work

/-- Go error values as used by worker.go: `errors.New` yields a leaf error
with a message; `fmt.Errorf` with `%w` yields a wrapping error whose
`Error()` is the formatted message and whose `Unwrap()` is the wrapped
error. -/
inductive Err where
  | base (msg : String)
  | wrap (msg : String) (inner : Err)
deriving DecidableEq

/-- Go method Error(): the message carried by the error value. -/
def Err.message : Err → String
  | .base m => m
  | .wrap m _ => m

/-- Go function errors.Is(e, t): walks the unwrap chain of `e` comparing each link
against the target `t`. -/
def errorsIs : Err → Err → Bool
  | .base m, t => decide (Err.base m = t)
  | .wrap m inner, t => decide (Err.wrap m inner = t) || errorsIs inner t

/-- Sentinel ErrMaxExecutionTime = errors.New("work: max execution time should be > 0"). -/
def ErrMaxExecutionTime : Err := .base "work: max execution time should be > 0"

/-- Sentinel ErrNumGoroutines = errors.New("work: number of goroutines should be > 0"). -/
def ErrNumGoroutines : Err := .base "work: number of goroutines should be > 0"

/-- Sentinel ErrIdleWait = errors.New("work: idle wait should be > 0"). -/
def ErrIdleWait : Err := .base "work: idle wait should be > 0"

/-- Sentinel ErrDoNotRetry = errors.New("work: do not retry"). -/
def ErrDoNotRetry : Err := .base "work: do not retry"

/-- Sentinel ErrQueueNotFound = errors.New("work: queue is not found"). -/
def ErrQueueNotFound : Err := .base "work: queue is not found"

/-- Sentinel ErrUnrecoverable = fmt.Errorf("work: permanent error: %w", ErrDoNotRetry):
a wrap of `ErrDoNotRetry`, so `errors.Is(ErrUnrecoverable, ErrDoNotRetry)` holds. -/
def ErrUnrecoverable : Err := .wrap "work: permanent error: work: do not retry" ErrDoNotRetry

/-- Sentinel ErrUnsupported = errors.New("work: unsupported"). -/
def ErrUnsupported : Err := .base "work: unsupported"

/-- Modelled from the spec: the empty-queue sentinel error declared outside
worker.go; the only non-failure "error" signal of a dequeue. -/
def ErrEmptyQueue : Err := .base "work: no job is found"

/-- Modelled from the spec: the Job record declared outside worker.go.  The
core reads and mutates only the retry counter, last-error, enqueue time and
updated-at; the identifier and payload are opaque. -/
structure Job where
  ID : String
  Retries : Int
  LastError : String
  EnqueuedAt : Int
  UpdatedAt : Int
  Payload : String
deriving DecidableEq

/-- Modelled from the spec: DequeueOptions declared outside worker.go —
namespace, queue-id, wall-clock instant, invisible-seconds. -/
structure DequeueOptions where
  Namespace : String
  QueueID : String
  At : Int
  InvisibleSec : Int
deriving DecidableEq

/-- Modelled from the spec: EnqueueOptions declared outside worker.go —
namespace and queue-id. -/
structure EnqueueOptions where
  Namespace : String
  QueueID : String
deriving DecidableEq

/-- Modelled from the spec: AckOptions declared outside worker.go —
namespace and queue-id. -/
structure AckOptions where
  Namespace : String
  QueueID : String
deriving DecidableEq

/-- JobOptions: the fields worker.go validates and consults.  Durations are
nanoseconds (`time.Duration`).  The middleware lists and per-handler
overrides do not affect the validated fields and are elided here. -/
structure JobOptions where
  MaxExecutionTime : Int
  IdleWait : Int
  NumGoroutines : Int
deriving DecidableEq

/-- Validation of JobOptions: returns the first applicable validation error,
checking MaxExecutionTime, then IdleWait, then NumGoroutines;
`none` models a nil error. -/
def JobOptions.Validate (opt : JobOptions) : Option Err :=
  if opt.MaxExecutionTime ≤ 0 then some ErrMaxExecutionTime
  else if opt.IdleWait ≤ 0 then some ErrIdleWait
  else if opt.NumGoroutines ≤ 0 then some ErrNumGoroutines
  else none

/-- The handler record stored in the `handlerMap` of the worker.  The stored
handle function is the user handler wrapped with a `context.WithTimeout`
deadline; being behavioural, the function value itself is not part of the
registry state modelled here. -/
structure handler where
  QueueID : String
  JobOptions : JobOptions
deriving DecidableEq

/-- Registration: `RegisterWithContext` acting on the registry validates the options and
on failure returns the error leaving the map untouched; on success stores
the record under its queue id (replacing any previous record). -/
def RegisterWithContext (m : String → Option handler) (queueID : String)
    (opt : JobOptions) : Option Err × (String → Option handler) :=
  match opt.Validate with
  | some e => (some e, m)
  | none => (none, fun q => if q = queueID then some ⟨queueID, opt⟩ else m q)

/-- Result of one call of the single-job dequeue function.  `indexPanic`
models the Go run-time fault of indexing an empty slice (`jobs[0]`). -/
inductive DeqResult where
  | ok (job : Job)
  | err (e : Err)
  | indexPanic
deriving DecidableEq

/-- A record of one `BulkDequeue(count, opt)` call issued by the adapter. -/
structure BulkCall where
  count : Int
  opt : DequeueOptions
deriving DecidableEq

/-- Outcome of one call of the adapter returned by `getDequeueFunc` for a
bulk-capable queue: the value returned, the prefetch buffer afterwards, and
the `BulkDequeue` call made during this step, if any. -/
structure AdapterStep where
  result : DeqResult
  buf : List Job
  call : Option BulkCall
deriving DecidableEq

/-- Batch size from `getDequeueFunc`: count is 60 / opt.InvisibleSec, set to 1
when that quotient is not positive (Go division truncates: `Int.tdiv`). -/
def bulkCount (invisibleSec : Int) : Int :=
  let count := Int.tdiv 60 invisibleSec
  if count ≤ 0 then 1 else count

/-- One call of the closure returned by `getDequeueFunc` for a queue that
implements `BulkDequeuer`, with the prefetch buffer (`jobs`) made an
explicit argument and the `BulkDequeue` of the backend an explicit function of
the count and options.  When the buffer is empty the adapter issues one
bulk call with `bulkOpt.InvisibleSec = opt.InvisibleSec * count`; it then
evaluates `jobs[0]`, which faults if the bulk call returned an empty slice
with no error. -/
def getDequeueFuncStep (bulkDequeue : Int → DequeueOptions → Except Err (List Job))
    (buf : List Job) (opt : DequeueOptions) : AdapterStep :=
  match buf with
  | j :: rest => ⟨.ok j, rest, none⟩
  | [] =>
    let count := bulkCount opt.InvisibleSec
    let bulkOpt := { opt with InvisibleSec := opt.InvisibleSec * count }
    match bulkDequeue count bulkOpt with
    | .error e => ⟨.err e, [], some ⟨count, bulkOpt⟩⟩
    | .ok [] => ⟨.indexPanic, [], some ⟨count, bulkOpt⟩⟩
    | .ok (j :: rest) => ⟨.ok j, rest, some ⟨count, bulkOpt⟩⟩

/-- Effect of one invocation of the `retry` middleware: the error returned
to the loop (`none` is a nil error, which makes the loop ack), the job
value afterwards (the retry path mutates it in place), and the
`Enqueue(job, opt)` call issued, if any. -/
structure RetryEffect where
  result : Option Err
  job : Job
  enqueued : Option (Job × EnqueueOptions)
deriving DecidableEq

/-- The `retry` middleware around an inner handler whose outcome is
`innerResult`.  `delay k` abstracts the backoff value obtained by advancing
a fresh exponential-backoff schedule `k` times (see `backoffDelayNs`), and
`enqueueResult` is whatever error the `Enqueue` of the queue returns — the code
discards it.  On an error that is `errors.Is` `ErrUnrecoverable` it returns
nil (ack); on one that is `errors.Is` `ErrDoNotRetry` it returns the error
with no side effect; otherwise it bumps the retry state and re-enqueues. -/
def retryStep (now : Int) (delay : Int → Int) (innerResult : Option Err)
    (enqueueResult : Option Err) (job : Job) (opt : DequeueOptions) : RetryEffect :=
  match innerResult with
  | none => ⟨none, job, none⟩
  | some e =>
    if errorsIs e ErrUnrecoverable then ⟨none, job, none⟩
    else if errorsIs e ErrDoNotRetry then ⟨some e, job, none⟩
    else
      let j := { job with
        Retries := job.Retries + 1
        LastError := e.message
        UpdatedAt := now
        EnqueuedAt := now + delay (job.Retries + 1) }
      let _ := enqueueResult
      ⟨some e, j, some (j, ⟨opt.Namespace, opt.QueueID⟩)⟩

/-- The loop body after `handle(job, opt)` returns: a nil result appends
the job to the ack buffer, any error leaves the buffer unchanged. -/
def loopAck (handleResult : Option Err) (job : Job) (ackJobs : List Job) : List Job :=
  match handleResult with
  | none => ackJobs ++ [job]
  | some _ => ackJobs

/-- Outcome of a handler invocation in a semantics where Go panics are
distinguished from error returns. -/
inductive HandleResult where
  | ok
  | err (e : Err)
  | panicked (v : String)
deriving DecidableEq

/-- Panic isolation (`catchPanic`): wraps a handler; a panic with value `v` is recovered and
turned into the ordinary error `fmt.Errorf("panic: %v\n\n%s", v, debug.Stack())`,
whose message carries the panic value and the stack trace (`stack` stands
for the bytes of `debug.Stack()`). -/
def catchPanic (f : Job → DequeueOptions → HandleResult) (stack : String) :
    Job → DequeueOptions → HandleResult :=
  fun job opt =>
    match f job opt with
    | .panicked v => .err (.base ("panic: " ++ v ++ "\n\n" ++ stack))
    | r => r

/-- The handle pipeline of the loop, `retry(queue)(catchPanic(inner))`:
panic isolation sits inside retry.  A panic that escaped `catchPanic`
would propagate as `panicked` (the first match arm); otherwise the
`retry` middleware processes the error. -/
def handlePipeline (now : Int) (delay : Int → Int) (enqueueResult : Option Err)
    (stack : String) (inner : Job → DequeueOptions → HandleResult)
    (job : Job) (opt : DequeueOptions) : HandleResult × Job × Option (Job × EnqueueOptions) :=
  match catchPanic inner stack job opt with
  | .panicked v => (.panicked v, job, none)
  | .ok =>
    let eff := retryStep now delay none enqueueResult job opt
    (match eff.result with | none => .ok | some e => .err e, eff.job, eff.enqueued)
  | .err e =>
    let eff := retryStep now delay (some e) enqueueResult job opt
    (match eff.result with | none => .ok | some e2 => .err e2, eff.job, eff.enqueued)

/-- Flush interval: flushIntv = time.Second, in nanoseconds. -/
def flushIntv : Int := 1000000000

/-- The `InvisibleSec` the loop puts into the DequeueOptions of each cycle:
`int64(2 * (MaxExecutionTime + flushIntv) / time.Second)` — whole seconds
by truncating division. -/
def loopInvisibleSec (maxExecutionTime : Int) : Int :=
  Int.tdiv (2 * (maxExecutionTime + flushIntv)) flushIntv

/-- The sequential-ack part of `flush`: `for _, job := range ackJobs`,
returning the first error, nil if every `Ack` succeeds. -/
def flushSeqAck (ack : Job → Option Err) : List Job → Option Err
  | [] => none
  | j :: rest =>
    match ack j with
    | some e => some e
    | none => flushSeqAck ack rest

/-- Result of one `flush()`: the returned error and the ack buffer
afterwards. -/
structure FlushResult where
  result : Option Err
  buf : List Job
deriving DecidableEq

/-- The flush closure of the loop.  `bulkAckAvail` is the BulkDequeuer probe
on the queue; `bulkAck` and `ack` give the responses of the backend.  With bulk available
the whole buffer goes into one `BulkAck` call; otherwise jobs are acked
one at a time in order.  On any error the function returns it at once and
`ackJobs` is not reset; on success `ackJobs = nil`. -/
def flushStep (bulkAckAvail : Bool) (bulkAck : List Job → Option Err)
    (ack : Job → Option Err) (ackJobs : List Job) : FlushResult :=
  if bulkAckAvail then
    match bulkAck ackJobs with
    | some e => ⟨some e, ackJobs⟩
    | none => ⟨none, []⟩
  else
    match flushSeqAck ack ackJobs with
    | some e => ⟨some e, ackJobs⟩
    | none => ⟨none, []⟩

/-- Worker state relevant to lifecycle: whether `Start` stored a cancel
function (`w.cancel != nil`), whether that scope was cancelled, the number
of loop goroutines the wait-group still tracks, and the handler registry. -/
structure WorkerState where
  cancelSet : Bool
  cancelled : Bool
  loops : Nat
  handlerMap : String → Option handler

/-- What a call of `Stop` does. -/
inductive StopResult where
  | returned (w : WorkerState)
  | waits (w : WorkerState)

/-- Lifecycle Stop: calls `w.cancel()` only if it is non-nil (an unguarded call of
a nil function would be a run-time fault, which this model would have to
represent — the guard makes it unreachable), then `w.wg.Wait()`, which
returns at once when no loop is tracked and otherwise blocks until the
loops exit. -/
def Worker.Stop (w : WorkerState) : StopResult :=
  let w2 := if w.cancelSet then { w with cancelled := true } else w
  if w2.loops = 0 then .returned w2 else .waits w2

/-- Backoff parameter InitialInterval = 2 * time.Second, in nanoseconds. -/
def initialIntervalNs : ℕ := 2000000000

/-- Backoff parameter MaxInterval = 24 * time.Hour, in nanoseconds. -/
def maxIntervalNs : ℕ := 86400000000000

/-- Modelled from the spec: the exponential-backoff schedule of the
`backoff` dependency that `retry` configures (initial interval 2 s,
multiplier 1.6, randomisation factor 0.2, max interval 24 h, no elapsed
cap); its float64 arithmetic is idealised as exact rationals.
`currentIntervalNs n` is the current interval after `n` increments: each
increment multiplies by 1.6 (the result truncated to whole nanoseconds)
and saturates at MaxInterval once the interval reaches
MaxInterval / Multiplier, i.e. once `8 * current ≥ 5 * max`. -/
def currentIntervalNs : ℕ → ℕ
  | 0 => initialIntervalNs
  | n + 1 =>
    if maxIntervalNs * 5 ≤ currentIntervalNs n * 8 then maxIntervalNs
    else currentIntervalNs n * 8 / 5

/-- Modelled from the spec: one `NextBackOff` draw at current interval `c`
with randomisation factor 0.2 and random value `r` from `[0, 1)`: with
`delta = 0.2·c` the library returns
`Duration((c − delta) + r·((c + delta) − (c − delta) + 1))`, the final
conversion truncating to whole nanoseconds. -/
def nextBackOffNs (r : ℚ) (c : ℕ) : ℤ :=
  ⌊((c : ℚ) - 1/5 * c) + r * (((c : ℚ) + 1/5 * c) - ((c : ℚ) - 1/5 * c) + 1)⌋

/-- Backoff delay(k): the value of the k-th `NextBackOff` of a fresh schedule, as
`retry` computes by advancing the schedule `k` times and keeping the last
value.  The k-th call consumes the k-th random value and reads the interval
left by the previous `k − 1` increments. -/
def backoffDelayNs (r : ℕ → ℚ) (k : ℕ) : ℤ :=
  nextBackOffNs (r (k - 1)) (currentIntervalNs (k - 1))

/-! ## Helper lemmas -/

/-- Any error that `errors.Is`-matches `ErrUnrecoverable` also matches
`ErrDoNotRetry`: the unrecoverable sentinel wraps the do-not-retry one. -/
theorem errorsIs_unrecoverable_imp_doNotRetry :
    ∀ e : Err, errorsIs e ErrUnrecoverable = true → errorsIs e ErrDoNotRetry = true := by
  intro e
  induction e with
  | base m =>
    intro h
    simp [errorsIs, ErrUnrecoverable] at h
  | wrap m inner ih =>
    intro h
    simp only [errorsIs, Bool.or_eq_true, decide_eq_true_eq] at h ⊢
    rcases h with h | h
    · right
      have hinner : inner = ErrDoNotRetry := by
        have := congrArg (fun x => match x with | Err.wrap _ i => i | Err.base _ => Err.base "") h
        simpa [ErrUnrecoverable] using this
      subst hinner
      simp [errorsIs, ErrDoNotRetry]
    · right
      exact ih h

/-- Lemma: `catchPanic` never lets a panic outcome through. -/
theorem catchPanic_no_panic (f : Job → DequeueOptions → HandleResult) (stack : String)
    (job : Job) (opt : DequeueOptions) (w : String) :
    catchPanic f stack job opt ≠ .panicked w := by
  unfold catchPanic
  cases f job opt <;> simp

/-- A message starting with `"panic: "` is not the do-not-retry message. -/
theorem panicMsg_ne_doNotRetry (v stack : String) :
    ("panic: " ++ v ++ "\n\n" ++ stack) ≠ "work: do not retry" := by
  intro hEq
  have hd := congrArg String.data hEq
  simp only [String.data_append] at hd
  have h3 := congrArg List.head? hd
  simp at h3

/-- Sequential acking skips a prefix of jobs whose `Ack` succeeds. -/
theorem flushSeqAck_append_ok (ack : Job → Option Err) (pre rest : List Job)
    (hpre : ∀ x ∈ pre, ack x = none) :
    flushSeqAck ack (pre ++ rest) = flushSeqAck ack rest := by
  induction pre with
  | nil => rfl
  | cons p ps ih =>
    have hp : ack p = none := hpre p (by simp)
    simp only [List.cons_append, flushSeqAck, hp]
    exact ih fun x hx => hpre x (by simp [hx])

/-- From index 23 on, the backoff interval sits at MaxInterval. -/
theorem currentIntervalNs_saturated : ∀ n, 23 ≤ n → currentIntervalNs n = maxIntervalNs := by
  have base : currentIntervalNs 23 = maxIntervalNs := by decide
  have step : ∀ m, currentIntervalNs (23 + m) = maxIntervalNs := by
    intro m
    induction m with
    | zero => exact base
    | succ k ih =>
      have : 23 + (k + 1) = (23 + k) + 1 := rfl
      rw [this]
      show (if maxIntervalNs * 5 ≤ currentIntervalNs (23 + k) * 8 then maxIntervalNs
        else currentIntervalNs (23 + k) * 8 / 5) = maxIntervalNs
      rw [ih]
      exact if_pos (by norm_num [maxIntervalNs])
  intro n hn
  obtain ⟨m, rfl⟩ := Nat.exists_eq_add_of_le hn
  exact step m

/-- Bounds for one `NextBackOff` draw at an interval `5·d`: the truncated
value lies in `[0.8·c, 1.2·c]` for every random value in `[0, 1)`. -/
theorem nextBackOffNs_bounds (r : ℚ) (h0 : 0 ≤ r) (h1 : r < 1) (d : ℕ) :
    (4 * d : ℤ) ≤ nextBackOffNs r (5 * d) ∧ nextBackOffNs r (5 * d) ≤ 6 * d := by
  have hval : ((5 * d : ℕ) : ℚ) - 1/5 * ((5 * d : ℕ) : ℚ) +
      r * ((((5 * d : ℕ) : ℚ) + 1/5 * ((5 * d : ℕ) : ℚ)) -
        (((5 * d : ℕ) : ℚ) - 1/5 * ((5 * d : ℕ) : ℚ)) + 1) =
      4 * d + r * (2 * d + 1) := by
    push_cast
    ring
  constructor
  · rw [nextBackOffNs, Int.le_floor, hval]
    have : 0 ≤ r * (2 * d + 1) := mul_nonneg h0 (by positivity)
    push_cast
    linarith
  · rw [nextBackOffNs]
    have hub : ((5 * d : ℕ) : ℚ) - 1/5 * ((5 * d : ℕ) : ℚ) +
        r * ((((5 * d : ℕ) : ℚ) + 1/5 * ((5 * d : ℕ) : ℚ)) -
          (((5 * d : ℕ) : ℚ) - 1/5 * ((5 * d : ℕ) : ℚ)) + 1) <
        ((6 * (d : ℤ) + 1 : ℤ) : ℚ) := by
      rw [hval]
      have hpos : (0 : ℚ) < 2 * (d : ℚ) + 1 := by positivity
      have hmul := mul_lt_mul_of_pos_right h1 hpos
      push_cast
      linarith
    have hfl := Int.floor_lt.mpr hub
    omega

/-! ## Claim theorems -/

/-- C1 counterexample: with `MaxExecutionTime = 300 ms` (positive, so
accepted by validation) the per-cycle `InvisibleSec` is `⌊2.6 s⌋ = 2 s`,
which is strictly below `2 × (maxExecutionTime + flushInterval) = 2.6 s`;
the claimed lower bound fails. -/
theorem invisibleSec_lower_bound_fails :
    0 < (300000000 : ℤ) ∧
    ¬ (2 * ((300000000 : ℤ) + flushIntv) ≤ loopInvisibleSec 300000000 * flushIntv) := by
  constructor
  · norm_num
  · rw [loopInvisibleSec]
    decide

/-- C1 (amended): for every positive MaxExecutionTime the per-cycle
`InvisibleSec` is `2 × (maxExecutionTime + flushInterval)` truncated to
whole seconds; in nanoseconds it lies within one second below
`2 × (maxExecutionTime + flushInterval)` (so the claimed `≥` holds exactly
when `2 × maxExecutionTime` is a whole number of seconds), and it is at
least the 2 whole seconds of `2 × (maxExecutionTime + 1 s)`. -/
theorem invisibleSec_whole_seconds (met : ℤ) (h : 0 < met) :
    loopInvisibleSec met = Int.tdiv (2 * (met + flushIntv)) flushIntv ∧
    2 * (met + flushIntv) - flushIntv < loopInvisibleSec met * flushIntv ∧
    loopInvisibleSec met * flushIntv ≤ 2 * (met + flushIntv) ∧
    2 ≤ loopInvisibleSec met := by
  have hx : (0 : ℤ) ≤ 2 * (met + flushIntv) := by
    have : (0 : ℤ) < flushIntv := by norm_num [flushIntv]
    linarith
  have hfp : (0 : ℤ) < flushIntv := by norm_num [flushIntv]
  have hdiv : loopInvisibleSec met = 2 * (met + flushIntv) / flushIntv := by
    rw [loopInvisibleSec, Int.tdiv_eq_ediv hx hfp.le]
  refine ⟨rfl, ?_, ?_, ?_⟩
  · rw [hdiv]
    have hmod := Int.ediv_add_emod (2 * (met + flushIntv)) flushIntv
    have hlt := Int.emod_lt_of_pos (2 * (met + flushIntv)) hfp
    nlinarith [hmod, hlt]
  · rw [hdiv]
    have hmod := Int.ediv_add_emod (2 * (met + flushIntv)) flushIntv
    have hge := Int.emod_nonneg (2 * (met + flushIntv)) hfp.ne'
    nlinarith [hmod, hge]
  · rw [hdiv]
    rw [Int.le_ediv_iff_mul_le hfp]
    linarith

/-- C1 witness: at `MaxExecutionTime = 1 s` the theorem applies and gives
`InvisibleSec = 4`. -/
theorem invisibleSec_whole_seconds_witness :
    loopInvisibleSec 1000000000 = Int.tdiv (2 * ((1000000000 : ℤ) + flushIntv)) flushIntv ∧
    2 * ((1000000000 : ℤ) + flushIntv) - flushIntv < loopInvisibleSec 1000000000 * flushIntv ∧
    loopInvisibleSec 1000000000 * flushIntv ≤ 2 * ((1000000000 : ℤ) + flushIntv) ∧
    2 ≤ loopInvisibleSec 1000000000 :=
  invisibleSec_whole_seconds 1000000000 (by norm_num)

/-- C2: a bulk-capable backend whose `BulkDequeue` returns an empty job
slice with a nil error drives the adapter into evaluating `jobs[0]` on an
empty slice — an index-out-of-range run-time fault, not the graceful
empty-queue return the claim (and the specified equivalence of empty array
and empty-queue error) requires. -/
theorem bulk_empty_slice_faults :
    (getDequeueFuncStep (fun _ _ => Except.ok []) [] ⟨"ns", "q", 0, 10⟩).result =
      DeqResult.indexPanic := rfl

/-- C7: for a bulk-capable backend and options with positive
`InvisibleSec`, when the prefetch buffer is empty the adapter requests
exactly `count = max(1, 60 / invisibleSec)` jobs in a single `BulkDequeue`
call whose options carry `invisibleSec × count`; the returned jobs are
buffered and served one at a time in FIFO order, the buffer head first,
with no further bulk call while the buffer is non-empty. -/
theorem bulk_prefetch_fifo (bulkDequeue : ℤ → DequeueOptions → Except Err (List Job))
    (opt : DequeueOptions) (h : 0 < opt.InvisibleSec) :
    bulkCount opt.InvisibleSec = max 1 (Int.tdiv 60 opt.InvisibleSec) ∧
    (∀ j js, bulkDequeue (bulkCount opt.InvisibleSec)
        { opt with InvisibleSec := opt.InvisibleSec * bulkCount opt.InvisibleSec } =
          Except.ok (j :: js) →
      getDequeueFuncStep bulkDequeue [] opt =
        ⟨.ok j, js, some ⟨bulkCount opt.InvisibleSec,
          { opt with InvisibleSec := opt.InvisibleSec * bulkCount opt.InvisibleSec }⟩⟩) ∧
    (∀ j js, getDequeueFuncStep bulkDequeue (j :: js) opt = ⟨.ok j, js, none⟩) := by
  refine ⟨?_, ?_, ?_⟩
  · have h0 : 0 ≤ Int.tdiv 60 opt.InvisibleSec := Int.tdiv_nonneg (by norm_num) h.le
    rw [bulkCount]
    split
    · omega
    · omega
  · intro j js hb
    simp only [getDequeueFuncStep, hb]
  · intro j js
    rfl

/-- C7 witness: with `InvisibleSec = 10` the adapter requests
`count = 6 = max(1, 60/10)` jobs at `InvisibleSec 60`, serves the first of
the two returned jobs, and then serves the second from the buffer without
another bulk call. -/
theorem bulk_prefetch_fifo_witness :
    bulkCount (10 : ℤ) = max 1 (Int.tdiv 60 10) ∧
    getDequeueFuncStep
        (fun _ _ => Except.ok [⟨"j1", 0, "", 0, 0, ""⟩, ⟨"j2", 0, "", 0, 0, ""⟩])
        [] ⟨"ns", "q", 0, 10⟩ =
      ⟨.ok ⟨"j1", 0, "", 0, 0, ""⟩, [⟨"j2", 0, "", 0, 0, ""⟩], some ⟨6, ⟨"ns", "q", 0, 60⟩⟩⟩ ∧
    getDequeueFuncStep
        (fun _ _ => Except.ok [⟨"j1", 0, "", 0, 0, ""⟩, ⟨"j2", 0, "", 0, 0, ""⟩])
        [⟨"j2", 0, "", 0, 0, ""⟩] ⟨"ns", "q", 0, 10⟩ =
      ⟨.ok ⟨"j2", 0, "", 0, 0, ""⟩, [], none⟩ := by
  have H := bulk_prefetch_fifo
    (fun _ _ => Except.ok [⟨"j1", 0, "", 0, 0, ""⟩, ⟨"j2", 0, "", 0, 0, ""⟩])
    ⟨"ns", "q", 0, 10⟩ (by norm_num)
  exact ⟨H.1, H.2.1 ⟨"j1", 0, "", 0, 0, ""⟩ [⟨"j2", 0, "", 0, 0, ""⟩] rfl,
    H.2.2 ⟨"j2", 0, "", 0, 0, ""⟩ []⟩

/-- C8: registration fails exactly when one of MaxExecutionTime, IdleWait,
NumGoroutines is non-positive, with a distinct sentinel error for each
violation checked in that order, and a failed registration leaves the
registry untouched; a successful registration stores the record under its
queue id without disturbing other entries, and registering the same id
again replaces the stored record. -/
theorem register_validates_and_stores (m : String → Option handler) (q : String)
    (opt : JobOptions) :
    ((RegisterWithContext m q opt).1.isSome ↔
      (opt.MaxExecutionTime ≤ 0 ∨ opt.IdleWait ≤ 0 ∨ opt.NumGoroutines ≤ 0)) ∧
    (opt.MaxExecutionTime ≤ 0 →
      RegisterWithContext m q opt = (some ErrMaxExecutionTime, m)) ∧
    (0 < opt.MaxExecutionTime → opt.IdleWait ≤ 0 →
      RegisterWithContext m q opt = (some ErrIdleWait, m)) ∧
    (0 < opt.MaxExecutionTime → 0 < opt.IdleWait → opt.NumGoroutines ≤ 0 →
      RegisterWithContext m q opt = (some ErrNumGoroutines, m)) ∧
    (ErrMaxExecutionTime ≠ ErrIdleWait ∧ ErrMaxExecutionTime ≠ ErrNumGoroutines ∧
      ErrIdleWait ≠ ErrNumGoroutines) ∧
    (0 < opt.MaxExecutionTime → 0 < opt.IdleWait → 0 < opt.NumGoroutines →
      (RegisterWithContext m q opt).1 = none ∧
      (RegisterWithContext m q opt).2 q = some ⟨q, opt⟩ ∧
      (∀ q2, q2 ≠ q → (RegisterWithContext m q opt).2 q2 = m q2)) ∧
    (∀ opt2 : JobOptions, 0 < opt2.MaxExecutionTime → 0 < opt2.IdleWait →
      0 < opt2.NumGoroutines →
      (RegisterWithContext (RegisterWithContext m q opt).2 q opt2).2 q = some ⟨q, opt2⟩) := by
  refine ⟨?_, ?_, ?_, ?_, ⟨by decide, by decide, by decide⟩, ?_, ?_⟩
  · rw [RegisterWithContext, JobOptions.Validate]
    split_ifs with h1 h2 h3 <;> simp <;> omega
  · intro h1
    rw [RegisterWithContext, JobOptions.Validate]
    simp [h1]
  · intro h1 h2
    rw [RegisterWithContext, JobOptions.Validate]
    simp [h2, show ¬ opt.MaxExecutionTime ≤ 0 by omega]
  · intro h1 h2 h3
    rw [RegisterWithContext, JobOptions.Validate]
    simp [h3, show ¬ opt.MaxExecutionTime ≤ 0 by omega, show ¬ opt.IdleWait ≤ 0 by omega]
  · intro h1 h2 h3
    rw [RegisterWithContext, JobOptions.Validate]
    simp [show ¬ opt.MaxExecutionTime ≤ 0 by omega, show ¬ opt.IdleWait ≤ 0 by omega,
      show ¬ opt.NumGoroutines ≤ 0 by omega]
    intro q2 hq2
    simp [hq2]
  · intro opt2 h1 h2 h3
    rw [RegisterWithContext, RegisterWithContext, JobOptions.Validate]
    simp [show ¬ opt2.MaxExecutionTime ≤ 0 by omega, show ¬ opt2.IdleWait ≤ 0 by omega,
      show ¬ opt2.NumGoroutines ≤ 0 by omega]

/-- C8 witness: concrete checks — invalid options are rejected with the
matching sentinel, valid options are stored, and re-registering replaces
the record. -/
theorem register_validates_and_stores_witness :
    RegisterWithContext (fun _ => none) "q" ⟨0, 1, 1⟩ =
      (some ErrMaxExecutionTime, fun _ => none) ∧
    (RegisterWithContext (fun _ => none) "q" ⟨1, 2, 3⟩).2 "q" = some ⟨"q", ⟨1, 2, 3⟩⟩ ∧
    (RegisterWithContext
        (RegisterWithContext (fun _ => none) "q" ⟨1, 2, 3⟩).2 "q" ⟨4, 5, 6⟩).2 "q" =
      some ⟨"q", ⟨4, 5, 6⟩⟩ := by
  refine ⟨?_, ?_, ?_⟩
  · exact (register_validates_and_stores (fun _ => none) "q" ⟨0, 1, 1⟩).2.1 (by norm_num)
  · exact ((register_validates_and_stores (fun _ => none) "q" ⟨1, 2, 3⟩).2.2.2.2.2.1
      (by norm_num) (by norm_num) (by norm_num)).2.1
  · exact (register_validates_and_stores (fun _ => none) "q" ⟨1, 2, 3⟩).2.2.2.2.2.2
      ⟨4, 5, 6⟩ (by norm_num) (by norm_num) (by norm_num)

/-- C10: calling `Stop` on a worker that was never started — no cancel
function stored and no loop goroutines tracked — returns at once with the
worker state unchanged, the nil `cancel` guarded by the nil check. -/
theorem stop_without_start (w : WorkerState) (h1 : w.cancelSet = false)
    (h2 : w.loops = 0) : Worker.Stop w = .returned w := by
  rw [Worker.Stop]
  simp [h1, h2]

/-- C10 witness: a freshly constructed worker. -/
theorem stop_without_start_witness :
    Worker.Stop ⟨false, false, 0, fun _ => none⟩ =
      .returned ⟨false, false, 0, fun _ => none⟩ :=
  stop_without_start ⟨false, false, 0, fun _ => none⟩ rfl rfl

/-- C3: classification of a failed handler invocation by the retry
middleware — an error matching unrecoverable makes it return nil, so the
loop appends the job to the ack buffer, and nothing is enqueued; an error
matching do-not-retry but not unrecoverable is returned unchanged with
neither ack nor enqueue; and every error matching unrecoverable also
matches do-not-retry (unrecoverable is-a do-not-retry). -/
theorem retry_error_taxonomy (now : ℤ) (delay : ℤ → ℤ) (enq : Option Err)
    (job : Job) (opt : DequeueOptions) (ack : List Job) (e : Err) :
    (errorsIs e ErrUnrecoverable = true →
      retryStep now delay (some e) enq job opt = ⟨none, job, none⟩ ∧
      loopAck (retryStep now delay (some e) enq job opt).result job ack = ack ++ [job]) ∧
    (errorsIs e ErrDoNotRetry = true → errorsIs e ErrUnrecoverable = false →
      retryStep now delay (some e) enq job opt = ⟨some e, job, none⟩ ∧
      loopAck (retryStep now delay (some e) enq job opt).result job ack = ack) ∧
    (∀ e2 : Err, errorsIs e2 ErrUnrecoverable = true → errorsIs e2 ErrDoNotRetry = true) := by
  refine ⟨?_, ?_, errorsIs_unrecoverable_imp_doNotRetry⟩
  · intro h
    constructor
    · rw [retryStep]
      simp [h]
    · rw [retryStep]
      simp [h, loopAck]
  · intro h1 h2
    constructor
    · rw [retryStep]
      simp [h1, h2]
    · rw [retryStep]
      simp [h1, h2, loopAck]

/-- C3 witness: the unrecoverable sentinel itself is acked, the
do-not-retry sentinel is returned untouched, and the is-a relation holds
at the sentinel. -/
theorem retry_error_taxonomy_witness :
    (retryStep 0 (fun _ => 0) (some ErrUnrecoverable) none ⟨"j", 0, "", 0, 0, ""⟩
        ⟨"n", "q", 0, 4⟩ = ⟨none, ⟨"j", 0, "", 0, 0, ""⟩, none⟩ ∧
      loopAck (retryStep 0 (fun _ => 0) (some ErrUnrecoverable) none ⟨"j", 0, "", 0, 0, ""⟩
        ⟨"n", "q", 0, 4⟩).result ⟨"j", 0, "", 0, 0, ""⟩ [] = [] ++ [⟨"j", 0, "", 0, 0, ""⟩]) ∧
    (retryStep 0 (fun _ => 0) (some ErrDoNotRetry) none ⟨"j", 0, "", 0, 0, ""⟩
        ⟨"n", "q", 0, 4⟩ = ⟨some ErrDoNotRetry, ⟨"j", 0, "", 0, 0, ""⟩, none⟩ ∧
      loopAck (retryStep 0 (fun _ => 0) (some ErrDoNotRetry) none ⟨"j", 0, "", 0, 0, ""⟩
        ⟨"n", "q", 0, 4⟩).result ⟨"j", 0, "", 0, 0, ""⟩ [] = []) ∧
    errorsIs ErrUnrecoverable ErrDoNotRetry = true :=
  ⟨(retry_error_taxonomy 0 (fun _ => 0) none ⟨"j", 0, "", 0, 0, ""⟩ ⟨"n", "q", 0, 4⟩ []
      ErrUnrecoverable).1 (by decide),
   ((retry_error_taxonomy 0 (fun _ => 0) none ⟨"j", 0, "", 0, 0, ""⟩ ⟨"n", "q", 0, 4⟩ []
      ErrDoNotRetry).2.1 (by decide) (by decide)),
   (retry_error_taxonomy 0 (fun _ => 0) none ⟨"j", 0, "", 0, 0, ""⟩ ⟨"n", "q", 0, 4⟩ []
      ErrDoNotRetry).2.2 ErrUnrecoverable (by decide)⟩

/-- C4: a handler error matching neither do-not-retry nor unrecoverable
makes retry re-enqueue the job with retries incremented by exactly 1,
last-error set to the message of the error, updated-at set to now, enqueue-at
set to `now + delay(retries)` under the namespace and queue id of the
dequeue options; the middleware returns the same error (no ack), and the
outcome is independent of whatever error the backend Enqueue returns. -/
theorem retry_reenqueue_state (now : ℤ) (delay : ℤ → ℤ) (enq : Option Err)
    (job : Job) (opt : DequeueOptions) (e : Err)
    (h : errorsIs e ErrDoNotRetry = false) :
    retryStep now delay (some e) enq job opt =
      ⟨some e,
       { job with
         Retries := job.Retries + 1
         LastError := e.message
         UpdatedAt := now
         EnqueuedAt := now + delay (job.Retries + 1) },
       some ({ job with
         Retries := job.Retries + 1
         LastError := e.message
         UpdatedAt := now
         EnqueuedAt := now + delay (job.Retries + 1) },
         ⟨opt.Namespace, opt.QueueID⟩)⟩ ∧
    (∀ enq2, retryStep now delay (some e) enq2 job opt =
      retryStep now delay (some e) enq job opt) := by
  have hu : errorsIs e ErrUnrecoverable = false := by
    cases hh : errorsIs e ErrUnrecoverable
    · rfl
    · exact absurd (errorsIs_unrecoverable_imp_doNotRetry e hh) (by simp [h])
  constructor
  · rw [retryStep]
    simp [h, hu]
  · intro enq2
    rw [retryStep, retryStep]

/-- C4 witness: a plain "boom" error at a concrete job; retries go from 1
to 2, the delay for 2 retries is added to now, and the enqueue error is
discarded. -/
theorem retry_reenqueue_state_witness :
    retryStep 5 (fun k => k) (some (Err.base "boom")) none ⟨"j", 1, "", 0, 0, "p"⟩
        ⟨"n", "q", 0, 4⟩ =
      ⟨some (Err.base "boom"), ⟨"j", 2, "boom", 7, 5, "p"⟩,
        some (⟨"j", 2, "boom", 7, 5, "p"⟩, ⟨"n", "q"⟩)⟩ ∧
    retryStep 5 (fun k => k) (some (Err.base "boom")) (some ErrUnsupported)
        ⟨"j", 1, "", 0, 0, "p"⟩ ⟨"n", "q", 0, 4⟩ =
      retryStep 5 (fun k => k) (some (Err.base "boom")) none ⟨"j", 1, "", 0, 0, "p"⟩
        ⟨"n", "q", 0, 4⟩ :=
  ⟨(retry_reenqueue_state 5 (fun k => k) none ⟨"j", 1, "", 0, 0, "p"⟩ ⟨"n", "q", 0, 4⟩
      (Err.base "boom") (by decide)).1,
   (retry_reenqueue_state 5 (fun k => k) none ⟨"j", 1, "", 0, 0, "p"⟩ ⟨"n", "q", 0, 4⟩
      (Err.base "boom") (by decide)).2 (some ErrUnsupported)⟩

/-- C6: a panicking inner handler is converted by `catchPanic` into an
ordinary error whose message carries the panic value after the
`"panic: "` marker together with the stack trace; that error matches
neither do-not-retry nor unrecoverable, so the surrounding retry
middleware re-enqueues the job with retries incremented; and the composed
pipeline never lets a panic outcome through to the loop. -/
theorem panic_isolated_and_retried (now : ℤ) (delay : ℤ → ℤ) (enq : Option Err)
    (stack v : String) (inner : Job → DequeueOptions → HandleResult)
    (job : Job) (opt : DequeueOptions) (h : inner job opt = .panicked v) :
    catchPanic inner stack job opt = .err (.base ("panic: " ++ v ++ "\n\n" ++ stack)) ∧
    errorsIs (.base ("panic: " ++ v ++ "\n\n" ++ stack)) ErrDoNotRetry = false ∧
    errorsIs (.base ("panic: " ++ v ++ "\n\n" ++ stack)) ErrUnrecoverable = false ∧
    (handlePipeline now delay enq stack inner job opt).1 =
      .err (.base ("panic: " ++ v ++ "\n\n" ++ stack)) ∧
    (handlePipeline now delay enq stack inner job opt).2.1.Retries = job.Retries + 1 ∧
    (handlePipeline now delay enq stack inner job opt).2.2 ≠ none ∧
    (∀ inner2 job2 opt2 w, (handlePipeline now delay enq stack inner2 job2 opt2).1 ≠
      .panicked w) := by
  have hcp : catchPanic inner stack job opt =
      .err (.base ("panic: " ++ v ++ "\n\n" ++ stack)) := by
    rw [catchPanic]
    simp [h]
  have hdnr : errorsIs (.base ("panic: " ++ v ++ "\n\n" ++ stack)) ErrDoNotRetry = false := by
    simp only [errorsIs, decide_eq_false_iff_not]
    intro hb
    exact panicMsg_ne_doNotRetry v stack (by
      have := congrArg Err.message hb
      simpa [Err.message, ErrDoNotRetry] using this)
  have hunrec : errorsIs (.base ("panic: " ++ v ++ "\n\n" ++ stack)) ErrUnrecoverable = false := by
    simp [errorsIs, ErrUnrecoverable]
  have hr2 : retryStep now delay (some (.base ("panic: " ++ v ++ "\n\n" ++ stack)))
      enq job opt =
      ⟨some (.base ("panic: " ++ v ++ "\n\n" ++ stack)),
       { job with
         Retries := job.Retries + 1
         LastError := ("panic: " ++ v ++ "\n\n" ++ stack)
         UpdatedAt := now
         EnqueuedAt := now + delay (job.Retries + 1) },
       some ({ job with
         Retries := job.Retries + 1
         LastError := ("panic: " ++ v ++ "\n\n" ++ stack)
         UpdatedAt := now
         EnqueuedAt := now + delay (job.Retries + 1) },
         ⟨opt.Namespace, opt.QueueID⟩)⟩ := by
    rw [retryStep]
    simp [hdnr, hunrec, Err.message]
  have hpipe : handlePipeline now delay enq stack inner job opt =
      (.err (.base ("panic: " ++ v ++ "\n\n" ++ stack)),
       { job with
         Retries := job.Retries + 1
         LastError := ("panic: " ++ v ++ "\n\n" ++ stack)
         UpdatedAt := now
         EnqueuedAt := now + delay (job.Retries + 1) },
       some ({ job with
         Retries := job.Retries + 1
         LastError := ("panic: " ++ v ++ "\n\n" ++ stack)
         UpdatedAt := now
         EnqueuedAt := now + delay (job.Retries + 1) },
         ⟨opt.Namespace, opt.QueueID⟩)) := by
    unfold handlePipeline
    simp only [hcp]
    rw [hr2]
  refine ⟨hcp, hdnr, hunrec, ?_, ?_, ?_, ?_⟩
  · rw [hpipe]
  · rw [hpipe]
  · rw [hpipe]
    simp
  · intro inner2 job2 opt2 w
    rw [handlePipeline]
    rcases hres : catchPanic inner2 stack job2 opt2 with _ | e2 | v2
    · cases hrr : (retryStep now delay none enq job2 opt2).result <;> simp [hrr]
    · cases hrr : (retryStep now delay (some e2) enq job2 opt2).result <;> simp [hrr]
    · exact absurd hres (catchPanic_no_panic inner2 stack job2 opt2 v2)

/-- C6 witness: a handler that panics with "oops". -/
theorem panic_isolated_and_retried_witness :
    catchPanic (fun _ _ => .panicked "oops") "st" ⟨"j", 0, "", 0, 0, ""⟩ ⟨"n", "q", 0, 4⟩ =
      .err (.base ("panic: " ++ "oops" ++ "\n\n" ++ "st")) ∧
    (handlePipeline 0 (fun _ => 0) none "st" (fun _ _ => .panicked "oops")
        ⟨"j", 0, "", 0, 0, ""⟩ ⟨"n", "q", 0, 4⟩).2.1.Retries = 0 + 1 ∧
    (∀ w, (handlePipeline 0 (fun _ => 0) none "st" (fun _ _ => .panicked "oops")
        ⟨"j", 0, "", 0, 0, ""⟩ ⟨"n", "q", 0, 4⟩).1 ≠ .panicked w) :=
  ⟨(panic_isolated_and_retried 0 (fun _ => 0) none "st" "oops" (fun _ _ => .panicked "oops")
      ⟨"j", 0, "", 0, 0, ""⟩ ⟨"n", "q", 0, 4⟩ rfl).1,
   (panic_isolated_and_retried 0 (fun _ => 0) none "st" "oops" (fun _ _ => .panicked "oops")
      ⟨"j", 0, "", 0, 0, ""⟩ ⟨"n", "q", 0, 4⟩ rfl).2.2.2.2.1,
   fun w => (panic_isolated_and_retried 0 (fun _ => 0) none "st" "oops"
      (fun _ _ => .panicked "oops") ⟨"j", 0, "", 0, 0, ""⟩ ⟨"n", "q", 0, 4⟩ rfl).2.2.2.2.2.2
      (fun _ _ => .panicked "oops") ⟨"j", 0, "", 0, 0, ""⟩ ⟨"n", "q", 0, 4⟩ w⟩

/-- C9: with bulk ack available the whole buffer goes into one `BulkAck`
call — an error leaves the buffer intact and is returned, success empties
it; without bulk ack jobs are acked one at a time in buffer order, the
first ack error aborts the flush and is returned with the buffer kept (in
particular every not-yet-acked job stays for a future flush), and if every
ack succeeds the buffer is emptied. -/
theorem flush_semantics (bulkAck : List Job → Option Err) (ack : Job → Option Err)
    (ackJobs : List Job) :
    (∀ e, bulkAck ackJobs = some e →
      flushStep true bulkAck ack ackJobs = ⟨some e, ackJobs⟩) ∧
    (bulkAck ackJobs = none → flushStep true bulkAck ack ackJobs = ⟨none, []⟩) ∧
    (∀ pre j rest e, ackJobs = pre ++ j :: rest → (∀ x ∈ pre, ack x = none) →
      ack j = some e → flushStep false bulkAck ack ackJobs = ⟨some e, ackJobs⟩) ∧
    ((∀ x ∈ ackJobs, ack x = none) → flushStep false bulkAck ack ackJobs = ⟨none, []⟩) := by
  refine ⟨?_, ?_, ?_, ?_⟩
  · intro e he
    rw [flushStep]
    simp [he]
  · intro he
    rw [flushStep]
    simp [he]
  · intro pre j rest e hsplit hpre hj
    rw [flushStep]
    subst hsplit
    rw [flushSeqAck_append_ok ack pre (j :: rest) hpre]
    simp [flushSeqAck, hj]
  · intro hall
    rw [flushStep]
    have : flushSeqAck ack ackJobs = none := by
      have := flushSeqAck_append_ok ack ackJobs [] hall
      simpa using this
    simp [this]

/-- C9 witness: a three-job buffer where the second ack fails — the flush
returns that error and keeps the whole buffer (so the un-acked second and
third jobs remain); a fully successful bulk flush empties the buffer. -/
theorem flush_semantics_witness :
    flushStep false (fun _ => none)
        (fun j => if j.ID = "b" then some (Err.base "x") else none)
        [⟨"a", 0, "", 0, 0, ""⟩, ⟨"b", 0, "", 0, 0, ""⟩, ⟨"c", 0, "", 0, 0, ""⟩] =
      ⟨some (Err.base "x"),
        [⟨"a", 0, "", 0, 0, ""⟩, ⟨"b", 0, "", 0, 0, ""⟩, ⟨"c", 0, "", 0, 0, ""⟩]⟩ ∧
    flushStep true (fun _ => none)
        (fun j => if j.ID = "b" then some (Err.base "x") else none)
        [⟨"a", 0, "", 0, 0, ""⟩, ⟨"b", 0, "", 0, 0, ""⟩, ⟨"c", 0, "", 0, 0, ""⟩] =
      ⟨none, []⟩ :=
  ⟨(flush_semantics (fun _ => none)
      (fun j => if j.ID = "b" then some (Err.base "x") else none)
      [⟨"a", 0, "", 0, 0, ""⟩, ⟨"b", 0, "", 0, 0, ""⟩, ⟨"c", 0, "", 0, 0, ""⟩]).2.2.1
      [⟨"a", 0, "", 0, 0, ""⟩] ⟨"b", 0, "", 0, 0, ""⟩ [⟨"c", 0, "", 0, 0, ""⟩]
      (Err.base "x") rfl (by decide) (by decide),
   (flush_semantics (fun _ => none)
      (fun j => if j.ID = "b" then some (Err.base "x") else none)
      [⟨"a", 0, "", 0, 0, ""⟩, ⟨"b", 0, "", 0, 0, ""⟩, ⟨"c", 0, "", 0, 0, ""⟩]).2.1 rfl⟩

/-- C5: for every randomisation source drawing from `[0, 1)`, the delay
obtained by advancing a fresh schedule (initial 2 s, multiplier 1.6,
randomisation 0.2, max interval 24 h) k times lies in `[1.6 s, 2.4 s]`
for k = 1 and in `[0.8 × 24 h, 1.2 × 24 h]` for every k ≥ 30 (values in
nanoseconds). -/
theorem backoff_schedule_bounds (r : ℕ → ℚ) (hr : ∀ i, 0 ≤ r i ∧ r i < 1) :
    ((1600000000 : ℤ) ≤ backoffDelayNs r 1 ∧ backoffDelayNs r 1 ≤ 2400000000) ∧
    (∀ k, 30 ≤ k →
      (69120000000000 : ℤ) ≤ backoffDelayNs r k ∧
        backoffDelayNs r k ≤ 103680000000000) := by
  constructor
  · rw [backoffDelayNs]
    have hc : currentIntervalNs (1 - 1) = 5 * 400000000 := by
      norm_num [currentIntervalNs, initialIntervalNs]
    rw [hc]
    have hb := nextBackOffNs_bounds (r (1 - 1)) (hr (1 - 1)).1 (hr (1 - 1)).2 400000000
    exact ⟨le_trans (by norm_num) hb.1, le_trans hb.2 (by norm_num)⟩
  · intro k hk
    rw [backoffDelayNs]
    have hsat : currentIntervalNs (k - 1) = maxIntervalNs :=
      currentIntervalNs_saturated (k - 1) (by omega)
    rw [hsat, show maxIntervalNs = 5 * 17280000000000 by norm_num [maxIntervalNs]]
    have hb := nextBackOffNs_bounds (r (k - 1)) (hr (k - 1)).1 (hr (k - 1)).2 17280000000000
    exact ⟨le_trans (by norm_num) hb.1, le_trans hb.2 (by norm_num)⟩

/-- C5 witness: the bounds at the constant randomisation source 1/2, for
k = 1 and k = 30. -/
theorem backoff_schedule_bounds_witness :
    ((1600000000 : ℤ) ≤ backoffDelayNs (fun _ => 1/2) 1 ∧
      backoffDelayNs (fun _ => 1/2) 1 ≤ 2400000000) ∧
    ((69120000000000 : ℤ) ≤ backoffDelayNs (fun _ => 1/2) 30 ∧
      backoffDelayNs (fun _ => 1/2) 30 ≤ 103680000000000) :=
  ⟨(backoff_schedule_bounds (fun _ => 1/2) (fun _ => by norm_num)).1,
   (backoff_schedule_bounds (fun _ => 1/2) (fun _ => by norm_num)).2 30 (by norm_num)⟩

end Work
